import Mathlib

/-!
Verification development for the TesteUpdate self-update system.

The development shallowly embeds the update-relevant parts of the
repository's Python sources:
  * `src/updates.py`   — the standalone Updater process (kill/wait loop,
    `copy_update`, `main`);
  * `src/AutoUpdate.py` — the in-app update client (`copy_bundled_root_if_available`,
    `AppUpdater._initialize_metadata`, `AppUpdater.check_for_updates`,
    `custom_install`).

Directories are modelled as association lists from entry names to values
(file contents, or opaque entries), with lookup/remove/write operations
mirroring `unlink`/`rmtree`/`copy2`/`copytree`/`write_bytes` at the level
of the directory listing.  Filesystem operations are modelled as
succeeding; exceptional control flow that the Python code branches on
(missing directory, client exception, missing updater executable) is
modelled explicitly as data.
-/

/-- Lookup of a key in an association list, mirroring a name lookup in a
directory listing: returns the value of the first pair whose key matches. -/
def lookupKey {α : Type} : List (String × α) → String → Option α
  | [], _ => none
  | (k, v) :: rest, n => if k = n then some v else lookupKey rest n

/-- Removal of a key from an association list, mirroring `unlink` /
`shutil.rmtree` of the named entry. -/
def removeKey {α : Type} : List (String × α) → String → List (String × α)
  | [], _ => []
  | (k, v) :: rest, n => if k = n then removeKey rest n else (k, v) :: removeKey rest n

/-- Writing a key, mirroring creating (or overwriting) the named entry. -/
def writeKey {α : Type} (l : List (String × α)) (n : String) (v : α) : List (String × α) :=
  removeKey l n ++ [(n, v)]

/-- Whether the named entry exists, mirroring `Path.exists()`. -/
def existsKey {α : Type} (l : List (String × α)) (n : String) : Bool :=
  (lookupKey l n).isSome

theorem lookupKey_removeKey {α : Type} (n m : String) :
    ∀ l : List (String × α),
      lookupKey (removeKey l n) m = if m = n then none else lookupKey l m
  | [] => by simp [removeKey, lookupKey]
  | (k, v) :: rest => by
      have ih := lookupKey_removeKey n m rest
      by_cases hkn : k = n
      · by_cases hmn : m = n
        · simp [removeKey, hkn, hmn] at ih ⊢
          exact ih
        · have hkm : ¬ k = m := fun h => hmn (by rw [← h, hkn])
          have hnm : ¬ n = m := fun h => hmn h.symm
          simp [removeKey, hkn, lookupKey, hkm, hmn, hnm] at ih ⊢
          exact ih
      · by_cases hkm : k = m
        · have hmn : ¬ m = n := fun h => hkn (by rw [hkm, h])
          simp [removeKey, hkn, lookupKey, hkm, hmn]
        · simp [removeKey, hkn, lookupKey, hkm, ih]

theorem lookupKey_append {α : Type} (m : String) :
    ∀ l₁ l₂ : List (String × α),
      lookupKey (l₁ ++ l₂) m = (lookupKey l₁ m).or (lookupKey l₂ m)
  | [], _ => by simp [lookupKey]
  | (k, v) :: rest, l₂ => by
      by_cases hkm : k = m
      · simp [lookupKey, hkm]
      · simp [lookupKey, hkm, lookupKey_append m rest l₂]

theorem lookupKey_writeKey {α : Type} (l : List (String × α)) (n m : String) (v : α) :
    lookupKey (writeKey l n v) m = if m = n then some v else lookupKey l m := by
  unfold writeKey
  rw [lookupKey_append, lookupKey_removeKey]
  by_cases hmn : m = n
  · simp [hmn, lookupKey]
  · have hnm : ¬ n = m := fun h => hmn h.symm
    simp [hmn, lookupKey, hnm]

theorem existsKey_removeKey {α : Type} (l : List (String × α)) (n m : String) :
    existsKey (removeKey l n) m = if m = n then false else existsKey l m := by
  unfold existsKey
  rw [lookupKey_removeKey]
  by_cases hmn : m = n <;> simp [hmn]

theorem existsKey_writeKey {α : Type} (l : List (String × α)) (n m : String) (v : α) :
    existsKey (writeKey l n v) m = if m = n then true else existsKey l m := by
  unfold existsKey
  rw [lookupKey_writeKey]
  by_cases hmn : m = n <;> simp [hmn]

theorem removeKey_of_lookup_none {α : Type} (n : String) :
    ∀ l : List (String × α), lookupKey l n = none → removeKey l n = l
  | [], _ => rfl
  | (k, v) :: rest, h => by
      by_cases hkn : k = n
      · simp [lookupKey, hkn] at h
      · simp [lookupKey, hkn] at h
        simp [removeKey, hkn, removeKey_of_lookup_none n rest h]

theorem lookupKey_eq_none_of_not_mem {α : Type} (n : String) :
    ∀ l : List (String × α), n ∉ l.map Prod.fst → lookupKey l n = none
  | [], _ => rfl
  | (k, v) :: rest, h => by
      simp only [List.map_cons, List.mem_cons] at h
      push_neg at h
      have hkn : ¬ k = n := fun hk => h.1 (Eq.symm hk)
      simp [lookupKey, hkn, lookupKey_eq_none_of_not_mem n rest h.2]

/-! ## Embedding of `src/updates.py` — the Updater process -/

/-- A top-level entry of a directory: a plain file with its contents, or a
subdirectory with its (opaque) recursive contents. -/
inductive Entry where
  | file : String → Entry
  | dir : List (String × String) → Entry
deriving DecidableEq

/-- A directory listing: top-level entry names with their entries. -/
abbrev DirListing := List (String × Entry)

/-- Embeds one iteration of the loop body of `copy_update` in
`src/updates.py` (lines 36-48): if an entry of the same name exists in the
destination it is removed first (`unlink` for a file, `shutil.rmtree` for a
directory), then the staged entry is copied into place (`shutil.copy2` /
`shutil.copytree`). -/
def copyItem (dest : DirListing) (n : String) (e : Entry) : DirListing :=
  (match lookupKey dest n with
   | some (Entry.file _) => removeKey dest n
   | some (Entry.dir _) => removeKey dest n
   | none => dest)
  ++ [(n, e)]

/-- Embeds `copy_update(extract_dir, destino)` from `src/updates.py`
(lines 32-48): iterates over the top-level entries of the staged directory
and installs each into the destination. -/
def copy_update (extract_dir destino : DirListing) : DirListing :=
  extract_dir.foldl (fun d p => copyItem d p.1 p.2) destino

theorem lookupKey_copyItem (dest : DirListing) (n m : String) (e : Entry) :
    lookupKey (copyItem dest n e) m = if m = n then some e else lookupKey dest m := by
  unfold copyItem
  rcases h : lookupKey dest n with _ | ⟨c⟩
  · rw [lookupKey_append]
    by_cases hmn : m = n
    · subst hmn; simp [h, lookupKey]
    · have hnm : ¬ n = m := fun hc => hmn hc.symm
      simp [hmn, lookupKey, hnm]
  · rcases c with c | c <;>
      · rw [lookupKey_append, lookupKey_removeKey]
        by_cases hmn : m = n
        · simp [hmn, lookupKey]
        · have hnm : ¬ n = m := fun hc => hmn hc.symm
          simp [hmn, lookupKey, hnm]

theorem copy_update_cons (k : String) (e : Entry) (tl : List (String × Entry))
    (dest : DirListing) :
    copy_update ((k, e) :: tl) dest = copy_update tl (copyItem dest k e) := rfl

/-- The staged directory of the spec's Apply-correctness example:
`{a.txt, sub/b.txt}` with fresh contents. -/
def stagedExample : DirListing :=
  [("a.txt", Entry.file "new"), ("sub", Entry.dir [("b.txt", "b-new")])]

/-- The destination directory of the spec's Apply-correctness example:
`{a.txt(old), c.txt}`. -/
def destExample : DirListing :=
  [("a.txt", Entry.file "old"), ("c.txt", Entry.file "c")]

/-- C1: the Updater's Apply step (`copy_update` in `src/updates.py`) maps
every top-level name to its staged entry when the name appears in the
staged directory (replacing any destination entry of that name), and
leaves every other destination entry untouched.  The hypothesis records
that the staged directory, being a real directory, has no duplicate
top-level names. -/
theorem copy_update_replaces_staged_keeps_rest :
    ∀ (ex dest : DirListing), (ex.map Prod.fst).Nodup →
      ∀ n : String,
        lookupKey (copy_update ex dest) n = (lookupKey ex n).or (lookupKey dest n)
  | [], dest, _, n => by simp [copy_update, lookupKey]
  | (k, e) :: tl, dest, h, n => by
      rw [List.map_cons, List.nodup_cons] at h
      rw [copy_update_cons]
      rw [copy_update_replaces_staged_keeps_rest tl (copyItem dest k e) h.2 n]
      rw [lookupKey_copyItem]
      by_cases hnk : n = k
      · subst hnk
        have htl : lookupKey tl n = none := lookupKey_eq_none_of_not_mem n tl h.1
        simp [lookupKey, htl]
      · have hkn : ¬ k = n := fun hc => hnk hc.symm
        simp [lookupKey, hkn, hnk]

/-- Witness for C1, instantiated at the spec's own example: staging
`{a.txt(new), sub/}` into `{a.txt(old), c.txt}`.  `a.txt` is replaced,
`sub` is installed, `c.txt` is untouched. -/
theorem copy_update_replaces_staged_keeps_rest_witness :
    (stagedExample.map Prod.fst).Nodup
    ∧ lookupKey (copy_update stagedExample destExample) "a.txt" =
        (lookupKey stagedExample "a.txt").or (lookupKey destExample "a.txt") :=
  ⟨by decide, copy_update_replaces_staged_keeps_rest stagedExample destExample (by decide) "a.txt"⟩

/-! ## The Updater process's kill/wait/apply sequencing (`main` in `src/updates.py`) -/

/-- An observable event of the Updater process: issuing a termination
signal (`kill_process`), probing the target pid's liveness (`os.kill(pid, 0)`,
recording whether the pid was found alive), entering the Apply phase
(`copy_update`), removing the staging directory, and exiting with a code. -/
inductive UEvent where
  | forceKill : UEvent
  | poll : Bool → UEvent
  | applyPhase : UEvent
  | cleanupPhase : UEvent
  | exited : Nat → UEvent
deriving DecidableEq

/-- `wait_process_end` in `src/updates.py` (lines 21-29) polls the pid on a
0.5 s interval for up to `timeout = 10` seconds; we model the wall-clock
bound as a poll budget.  `alive k` is the pid's liveness at the k-th probe.
If a probe raises `OSError` (pid gone) the function returns; if the budget
is exhausted it calls `kill_process(pid)`. -/
def wait_process_end (alive : Nat → Bool) : Nat → Nat → List UEvent
  | 0, _ => [UEvent.forceKill]
  | fuel + 1, k =>
      if alive k then UEvent.poll true :: wait_process_end alive fuel (k + 1)
      else [UEvent.poll false]

/-- The poll budget of `wait_process_end`: `timeout = 10` seconds at one
probe per 0.5 s sleep. -/
def maxPolls : Nat := 20

/-- The event trace of `main` in `src/updates.py` (lines 51-83) after
argument parsing: it calls `kill_process(pid)` (line 64), then
`wait_process_end(pid)` (line 65), then validates the extraction directory
(exit 1 if missing), then applies the update and removes the staging
directory and exits 0. -/
def updaterMain (alive : Nat → Bool) (extractExists : Bool) : List UEvent :=
  UEvent.forceKill ::
    (wait_process_end alive maxPolls 0 ++
      (if extractExists then [UEvent.applyPhase, UEvent.cleanupPhase, UEvent.exited 0]
       else [UEvent.exited 1]))

/-- Whether an event is a liveness probe. -/
def isPoll : UEvent → Bool
  | UEvent.poll _ => true
  | _ => false

/-- Number of liveness probes in a trace. -/
def countPolls (tr : List UEvent) : Nat := tr.countP isPoll

/-- The prefix of a trace strictly before the Apply phase is entered. -/
def beforeApply (tr : List UEvent) : List UEvent :=
  tr.takeWhile (fun e => decide (e ≠ UEvent.applyPhase))

/-- C2's claim, formalised over Updater traces: a termination signal is
issued only once the full poll budget (the ~10 s timeout) has elapsed
before it. -/
def noKillBeforeTimeout (tr : List UEvent) : Prop :=
  ∀ i, tr.get? i = some UEvent.forceKill → maxPolls ≤ countPolls (tr.take i)

theorem wait_shape (alive : Nat → Bool) :
    ∀ fuel k, UEvent.poll false ∈ wait_process_end alive fuel k
      ∨ countPolls (wait_process_end alive fuel k) = fuel
  | 0, _ => Or.inr (by simp [wait_process_end, countPolls, isPoll])
  | fuel + 1, k => by
      by_cases h : alive k
      · rcases wait_shape alive fuel (k + 1) with hm | hc
        · exact Or.inl (by simp [wait_process_end, h, hm])
        · refine Or.inr ?_
          simp [wait_process_end, h, countPolls, List.countP_cons, isPoll] at hc ⊢
          omega
      · exact Or.inl (by simp [wait_process_end, h])

theorem wait_events (alive : Nat → Bool) :
    ∀ fuel k x, x ∈ wait_process_end alive fuel k →
      x = UEvent.forceKill ∨ ∃ b, x = UEvent.poll b
  | 0, _, x, hx => by
      simp [wait_process_end] at hx
      exact Or.inl hx
  | fuel + 1, k, x, hx => by
      by_cases h : alive k
      · simp [wait_process_end, h] at hx
        rcases hx with hx | hx
        · exact Or.inr ⟨true, hx⟩
        · exact wait_events alive fuel (k + 1) x hx
      · simp [wait_process_end, h] at hx
        exact Or.inr ⟨false, hx⟩

theorem wait_kills_when_always_alive (alive : Nat → Bool) (h : ∀ k, alive k = true) :
    ∀ fuel k, UEvent.forceKill ∈ wait_process_end alive fuel k
  | 0, _ => by simp [wait_process_end]
  | fuel + 1, k => by
      simp [wait_process_end, h k]
      exact wait_kills_when_always_alive alive h fuel (k + 1)

theorem takeWhile_append_all {α : Type} (p : α → Bool) :
    ∀ l₁ l₂ : List α, (∀ x ∈ l₁, p x = true) →
      List.takeWhile p (l₁ ++ l₂) = l₁ ++ List.takeWhile p l₂
  | [], l₂, _ => rfl
  | a :: l₁, l₂, h => by
      have ha : p a = true := h a (List.mem_cons_self a l₁)
      have hrest : ∀ x ∈ l₁, p x = true := fun x hx => h x (List.mem_cons_of_mem a hx)
      simp [List.takeWhile_cons, ha, takeWhile_append_all p l₁ l₂ hrest]

theorem beforeApply_updaterMain (alive : Nat → Bool) (extractExists : Bool) :
    beforeApply (updaterMain alive extractExists) =
      UEvent.forceKill ::
        (wait_process_end alive maxPolls 0 ++ (if extractExists then [] else [UEvent.exited 1])) := by
  unfold beforeApply updaterMain
  have hall : ∀ x ∈ wait_process_end alive maxPolls 0,
      (fun e => decide (e ≠ UEvent.applyPhase)) x = true := by
    intro x hx
    rcases wait_events alive maxPolls 0 x hx with hx' | ⟨b, hx'⟩ <;> subst hx' <;> simp
  rw [List.takeWhile_cons]
  simp only [show decide (UEvent.forceKill ≠ UEvent.applyPhase) = true from by decide,
    if_true]
  rw [takeWhile_append_all _ _ _ hall]
  cases extractExists <;> simp [List.takeWhile_cons]

/-- C2 counterexample: running the Updater against a pid that is already
gone (every liveness probe reports dead), a termination signal is still
issued as the very first action, before any probe and long before the ~10 s
timeout — `main` in `src/updates.py` calls `kill_process(pid)` (line 64)
before `wait_process_end(pid)` (line 65), so the claimed
"forceful termination only after the timeout" is false. -/
theorem kill_issued_before_timeout :
    ¬ noKillBeforeTimeout (updaterMain (fun _ => false) true) := by
  intro h
  have h0 := h 0 rfl
  simp [countPolls, maxPolls] at h0

/-- C2 (amended): the Updater issues a termination signal immediately
(before any liveness probe), then polls liveness up to the ~10 s budget,
issues another forceful termination if the pid outlives every probe, and
the Apply phase is entered only after the pid has been observed gone or
the full poll budget (the timeout) has elapsed. -/
theorem updater_kill_then_wait_then_apply (alive : Nat → Bool) (extractExists : Bool) :
    (updaterMain alive extractExists).head? = some UEvent.forceKill
    ∧ (UEvent.applyPhase ∈ updaterMain alive extractExists →
        UEvent.poll false ∈ beforeApply (updaterMain alive extractExists)
          ∨ maxPolls ≤ countPolls (beforeApply (updaterMain alive extractExists)))
    ∧ ((∀ k, alive k = true) →
        UEvent.forceKill ∈ (updaterMain alive extractExists).tail) := by
  refine ⟨rfl, ?_, ?_⟩
  · intro _
    rw [beforeApply_updaterMain]
    rcases wait_shape alive maxPolls 0 with hm | hc
    · exact Or.inl (List.mem_cons_of_mem _ (List.mem_append_left _ hm))
    · refine Or.inr ?_
      simp [countPolls, List.countP_cons, List.countP_append, isPoll] at hc ⊢
      have : List.countP isPoll (wait_process_end alive maxPolls 0) = maxPolls := hc
      omega
  · intro hall
    have hk := wait_kills_when_always_alive alive hall maxPolls 0
    unfold updaterMain
    exact List.mem_append_left _ hk

/-- Witness for C2's amended theorem at a pid that never dies: the Updater
still reaches a (second) forceful kill after the wait. -/
theorem updater_kill_then_wait_then_apply_witness :
    UEvent.forceKill ∈ (updaterMain (fun _ => true) true).tail :=
  (updater_kill_then_wait_then_apply (fun _ => true) true).2.2 (fun _ => rfl)

/-! ## The Updater process's exit codes (`main` in `src/updates.py`) -/

/-- The exit code of `main` in `src/updates.py` (lines 51-83) as a function
of its three branch conditions: `sys.exit(1)` when fewer than four
command-line arguments are given (line 54), `sys.exit(1)` when the
extraction directory does not exist (line 70), `sys.exit(1)` when
`copy_update` raises (line 77), and `sys.exit(0)` on success (line 83). -/
def updaterExitCode (argc : Nat) (extractExists applySucceeds : Bool) : Nat :=
  if argc < 4 then 1
  else if !extractExists then 1
  else if !applySucceeds then 1
  else 0

/-- C3 counterexample: the three failure modes — missing arguments,
extraction directory not found, apply failure — all exit with the same
code 1, so the exit codes are not pairwise distinct. -/
theorem updater_exit_codes_not_distinct :
    updaterExitCode 1 true true = updaterExitCode 4 false true
    ∧ updaterExitCode 4 false true = updaterExitCode 4 true false
    ∧ updaterExitCode 4 false true ≠ 0 := by decide

/-- C3 (amended): the Updater exits 0 exactly on success and exits with
the non-zero code 1 — one shared code, not three distinct ones — for each
of the three failure modes. -/
theorem updater_exit_code_zero_iff_success (argc : Nat) (extractExists applySucceeds : Bool) :
    (updaterExitCode argc extractExists applySucceeds = 0
      ↔ 4 ≤ argc ∧ extractExists = true ∧ applySucceeds = true)
    ∧ (updaterExitCode argc extractExists applySucceeds = 0
        ∨ updaterExitCode argc extractExists applySucceeds = 1) := by
  unfold updaterExitCode
  by_cases h : argc < 4 <;> cases extractExists <;> cases applySucceeds <;> simp [h]
  all_goals omega

/-! ## The Updater process's end-to-end filesystem effect -/

/-- The filesystem as the Updater sees it: the installation directory's
listing and the staging directory (`none` when the staging directory does
not exist). -/
structure UpdaterFS where
  destino : DirListing
  extractDir : Option DirListing
deriving DecidableEq

/-- The filesystem effect and exit code of `main` in `src/updates.py`
(lines 67-83) after the wait phase: if the extraction directory is missing
it exits 1; otherwise it runs `copy_update` and then removes the
extraction directory (`shutil.rmtree(extract_dir)`, line 80) before
exiting 0.  File operations are modelled as succeeding. -/
def updaterRun (fs : UpdaterFS) : UpdaterFS × Nat :=
  match fs.extractDir with
  | none => (fs, 1)
  | some ex => (⟨copy_update ex fs.destino, none⟩, 0)

/-- C9: whenever the Updater exits 0, the staged source directory has been
removed: on a successful run it no longer exists. -/
theorem cleanup_on_success (fs : UpdaterFS) (h : (updaterRun fs).2 = 0) :
    (updaterRun fs).1.extractDir = none := by
  unfold updaterRun at h ⊢
  rcases hex : fs.extractDir with _ | ex
  · rw [hex] at h
    simp at h
  · simp

/-- Witness for C9 at a concrete staged release over a concrete
destination. -/
theorem cleanup_on_success_witness :
    (updaterRun ⟨destExample, some stagedExample⟩).2 = 0
    ∧ (updaterRun ⟨destExample, some stagedExample⟩).1.extractDir = none :=
  ⟨rfl, cleanup_on_success ⟨destExample, some stagedExample⟩ rfl⟩

/-! ## Embedding of `src/AutoUpdate.py` — the in-app update client -/

/-- The metadata cache directory (`metadata_dir`): file names with their
contents. -/
abbrev MetaFS := List (String × String)

/-- The three mutable TUF metadata cache files. -/
def mutableNames : List String := ["timestamp.json", "snapshot.json", "targets.json"]

/-- The deletion loop shared by `AppUpdater._initialize_metadata`
(`src/AutoUpdate.py` lines 136-140) and `AppUpdater.check_for_updates`
(lines 179-182): each of `timestamp.json`, `snapshot.json`, `targets.json`
that exists is unlinked. -/
def wipeMutable (fs : MetaFS) : MetaFS :=
  mutableNames.foldl removeKey fs

/-- Embeds `copy_bundled_root_if_available(metadata_dir)` from
`src/AutoUpdate.py` (lines 64-93).  `bundled` is the content of the
bundle's `root.json` when one was located (next to the executable or in
the frozen bundle), `none` otherwise.  When a bundled root exists and the
cached `root.json` is absent it is copied in as `root.json`, and as
`1.root.json` too when that is also absent; the function reports whether a
bundled root was found. -/
def copy_bundled_root_if_available (bundled : Option String) (fs : MetaFS) : MetaFS × Bool :=
  match bundled with
  | none => (fs, false)
  | some content =>
      if existsKey fs "root.json" then (fs, true)
      else
        (if existsKey (writeKey fs "root.json" content) "1.root.json"
         then writeKey fs "root.json" content
         else writeKey (writeKey fs "root.json" content) "1.root.json" content, true)

/-- Embeds `AppUpdater._download_metadata_file` from `src/AutoUpdate.py`
(lines 163-168): fetches the named file from the metadata origin
(`network` is the origin's response by file name) and writes its bytes
into the metadata directory. -/
def download_metadata_file (network : String → String) (fs : MetaFS) (filename : String) :
    MetaFS :=
  writeKey fs filename (network filename)

/-- Embeds `AppUpdater._initialize_metadata` from `src/AutoUpdate.py`
(lines 129-161): first unlink the mutable metadata files; if both
`root.json` and `1.root.json` exist, return; otherwise prefer the bundled
root (downloading only a missing `1.root.json` afterwards), and as the
remote TOFU fallback download `1.root.json` then `root.json`. -/
def initMetadata (bundled : Option String) (network : String → String) (fs : MetaFS) :
    MetaFS :=
  if existsKey (wipeMutable fs) "root.json" && existsKey (wipeMutable fs) "1.root.json" then
    wipeMutable fs
  else
    match copy_bundled_root_if_available bundled (wipeMutable fs) with
    | (fs2, true) =>
        if existsKey fs2 "1.root.json" then fs2
        else download_metadata_file network fs2 "1.root.json"
    | (fs2, false) =>
        download_metadata_file network (download_metadata_file network fs2 "1.root.json")
          "root.json"

/-- The verified release descriptor returned by the tufup client's
`check_for_updates` (its `filename` and `version.base_version`). -/
structure Release where
  filename : String
  version : String
deriving DecidableEq

/-- The state `AppUpdater.check_for_updates` reads and writes: the
metadata cache directory and the tufup client's `_target_base_url`. -/
structure ClientState where
  metaFS : MetaFS
  targetBaseUrl : String
deriving DecidableEq

/-- Embeds `AppUpdater.check_for_updates` from `src/AutoUpdate.py`
(lines 174-203).  Inside a `try`: the mutable metadata files are unlinked,
then the external tufup client is consulted on the resulting cache state
(`client` returns `Except.error` when it raises).  On a descriptor the
client's `_target_base_url` has `v<version>/` appended (line 189) and the
descriptor is returned; on `None` or on any exception the function
returns `None`. -/
def check_for_updates (st : ClientState)
    (client : MetaFS → Except String (Option Release)) : ClientState × Option Release :=
  match client (wipeMutable st.metaFS) with
  | Except.error _ => ({ st with metaFS := wipeMutable st.metaFS }, none)
  | Except.ok none => ({ st with metaFS := wipeMutable st.metaFS }, none)
  | Except.ok (some r) =>
      ({ metaFS := wipeMutable st.metaFS,
         targetBaseUrl := st.targetBaseUrl ++ "v" ++ r.version ++ "/" },
        some r)

/-- C4: `check_for_updates` never propagates a client failure: when the
client raises, the caller receives `none`, and in every case the caller
receives either `none` or a descriptor the client successfully returned. -/
theorem check_for_updates_no_crash (st : ClientState)
    (client : MetaFS → Except String (Option Release)) :
    (∀ e, client (wipeMutable st.metaFS) = Except.error e →
      (check_for_updates st client).2 = none)
    ∧ ((check_for_updates st client).2 = none
        ∨ ∃ r, (check_for_updates st client).2 = some r
            ∧ client (wipeMutable st.metaFS) = Except.ok (some r)) := by
  constructor
  · intro e he
    unfold check_for_updates
    rw [he]
  · unfold check_for_updates
    rcases hc : client (wipeMutable st.metaFS) with e | v
    · exact Or.inl rfl
    · rcases v with _ | r
      · exact Or.inl rfl
      · exact Or.inr ⟨r, rfl, rfl⟩

/-- Witness for C4 at a client that raises a network error. -/
theorem check_for_updates_no_crash_witness :
    (check_for_updates ⟨[], "https://example.org/targets/"⟩
        (fun _ => Except.error "DownloadError")).2 = none :=
  (check_for_updates_no_crash ⟨[], "https://example.org/targets/"⟩
      (fun _ => Except.error "DownloadError")).1 "DownloadError" rfl

/-- C6: whenever the client reports a newer release, the target base URL
is adjusted before download by appending the release's version tag
`v<version>/` as a path segment. -/
theorem target_base_url_versioned (st : ClientState)
    (client : MetaFS → Except String (Option Release)) (r : Release)
    (h : client (wipeMutable st.metaFS) = Except.ok (some r)) :
    (check_for_updates st client).1.targetBaseUrl =
      st.targetBaseUrl ++ "v" ++ r.version ++ "/" := by
  unfold check_for_updates
  rw [h]

/-- Witness for C6 at the spec's end-to-end example release `1.1.0`. -/
theorem target_base_url_versioned_witness :
    ((fun _ => Except.ok (some ⟨"AppTeste-1.1.0.tar.gz", "1.1.0"⟩)) :
        MetaFS → Except String (Option Release))
          (wipeMutable (⟨[], "https://github.com/FabioMayk510/TesteUpdate/releases/download/"⟩ :
            ClientState).metaFS) =
        Except.ok (some ⟨"AppTeste-1.1.0.tar.gz", "1.1.0"⟩)
    ∧ (check_for_updates ⟨[], "https://github.com/FabioMayk510/TesteUpdate/releases/download/"⟩
          (fun _ => Except.ok (some ⟨"AppTeste-1.1.0.tar.gz", "1.1.0"⟩))).1.targetBaseUrl =
        "https://github.com/FabioMayk510/TesteUpdate/releases/download/" ++ "v" ++ "1.1.0" ++ "/" :=
  ⟨rfl, target_base_url_versioned _ _ _ rfl⟩

theorem wipeMutable_eq (fs : MetaFS) :
    wipeMutable fs =
      removeKey (removeKey (removeKey fs "timestamp.json") "snapshot.json") "targets.json" := rfl

theorem lookupKey_wipeMutable_of_ne (fs : MetaFS) (m : String)
    (h1 : ¬ m = "timestamp.json") (h2 : ¬ m = "snapshot.json") (h3 : ¬ m = "targets.json") :
    lookupKey (wipeMutable fs) m = lookupKey fs m := by
  rw [wipeMutable_eq, lookupKey_removeKey, lookupKey_removeKey, lookupKey_removeKey]
  simp [h1, h2, h3]

theorem lookupKey_wipeMutable_mutable (fs : MetaFS) (m : String)
    (h : m = "timestamp.json" ∨ m = "snapshot.json" ∨ m = "targets.json") :
    lookupKey (wipeMutable fs) m = none := by
  rw [wipeMutable_eq, lookupKey_removeKey, lookupKey_removeKey, lookupKey_removeKey]
  rcases h with h | h | h <;> subst h <;> simp

theorem existsKey_wipeMutable_of_ne (fs : MetaFS) (m : String)
    (h1 : ¬ m = "timestamp.json") (h2 : ¬ m = "snapshot.json") (h3 : ¬ m = "targets.json") :
    existsKey (wipeMutable fs) m = existsKey fs m := by
  unfold existsKey
  rw [lookupKey_wipeMutable_of_ne fs m h1 h2 h3]

theorem existsKey_wipeMutable_mutable (fs : MetaFS) (m : String)
    (h : m = "timestamp.json" ∨ m = "snapshot.json" ∨ m = "targets.json") :
    existsKey (wipeMutable fs) m = false := by
  unfold existsKey
  rw [lookupKey_wipeMutable_mutable fs m h]
  rfl

theorem wipeMutable_wipeMutable (fs : MetaFS) :
    wipeMutable (wipeMutable fs) = wipeMutable fs := by
  conv_lhs => rw [wipeMutable_eq (wipeMutable fs)]
  rw [removeKey_of_lookup_none "timestamp.json" (wipeMutable fs)
      (lookupKey_wipeMutable_mutable fs _ (Or.inl rfl))]
  rw [removeKey_of_lookup_none "snapshot.json" (wipeMutable fs)
      (lookupKey_wipeMutable_mutable fs _ (Or.inr (Or.inl rfl)))]
  exact removeKey_of_lookup_none "targets.json" (wipeMutable fs)
    (lookupKey_wipeMutable_mutable fs _ (Or.inr (Or.inr rfl)))

theorem lookupKey_copy_bundled_of_ne (bundled : Option String) (fs : MetaFS) (m : String)
    (h1 : ¬ m = "root.json") (h2 : ¬ m = "1.root.json") :
    lookupKey (copy_bundled_root_if_available bundled fs).1 m = lookupKey fs m := by
  unfold copy_bundled_root_if_available
  cases bundled with
  | none => rfl
  | some c =>
      by_cases hr : existsKey fs "root.json"
      · simp [hr]
      · by_cases h1r : existsKey (writeKey fs "root.json" c) "1.root.json" <;>
          simp [hr, h1r, lookupKey_writeKey, h1, h2]

theorem lookupKey_download_of_ne (network : String → String) (fs : MetaFS) (fn m : String)
    (h : ¬ m = fn) :
    lookupKey (download_metadata_file network fs fn) m = lookupKey fs m := by
  unfold download_metadata_file
  rw [lookupKey_writeKey]
  simp [h]

/-- C7: the three mutable metadata cache files are gone from the cache
state on which every update check runs — on entry to the trust-bootstrap
routine (`_initialize_metadata`, which never re-creates them), and in the
metadata state handed to the external client by `check_for_updates`
(which is also the state `check_for_updates` leaves behind). -/
theorem mutable_cache_invalidated (bundled : Option String) (network : String → String)
    (fs : MetaFS) (st : ClientState) (client : MetaFS → Except String (Option Release))
    (m : String)
    (h : m = "timestamp.json" ∨ m = "snapshot.json" ∨ m = "targets.json") :
    existsKey (wipeMutable fs) m = false
    ∧ existsKey (initMetadata bundled network fs) m = false
    ∧ existsKey (check_for_updates st client).1.metaFS m = false := by
  have hroot : ¬ m = "root.json" := by rcases h with h | h | h <;> subst h <;> decide
  have hvroot : ¬ m = "1.root.json" := by rcases h with h | h | h <;> subst h <;> decide
  have hwipe : ∀ fs' : MetaFS, existsKey (wipeMutable fs') m = false :=
    fun fs' => existsKey_wipeMutable_mutable fs' m h
  refine ⟨hwipe fs, ?_, ?_⟩
  · unfold initMetadata
    by_cases hcond :
        (existsKey (wipeMutable fs) "root.json" && existsKey (wipeMutable fs) "1.root.json") = true
    · rw [if_pos hcond]
      exact hwipe fs
    · rw [if_neg hcond]
      rcases hb : copy_bundled_root_if_available bundled (wipeMutable fs) with ⟨fs2, found⟩
      have hfs2 : existsKey fs2 m = false := by
        have hpres := lookupKey_copy_bundled_of_ne bundled (wipeMutable fs) m hroot hvroot
        rw [hb] at hpres
        unfold existsKey
        rw [hpres]
        exact hwipe fs
      cases found with
      | false =>
          unfold download_metadata_file
          rw [existsKey_writeKey, if_neg hroot, existsKey_writeKey, if_neg hvroot]
          exact hfs2
      | true =>
          show existsKey (if existsKey fs2 "1.root.json" = true then fs2
            else download_metadata_file network fs2 "1.root.json") m = false
          by_cases h1r : existsKey fs2 "1.root.json" = true
          · rw [if_pos h1r]
            exact hfs2
          · rw [if_neg h1r]
            unfold download_metadata_file
            rw [existsKey_writeKey, if_neg hvroot]
            exact hfs2
  · have hmeta : (check_for_updates st client).1.metaFS = wipeMutable st.metaFS := by
      unfold check_for_updates
      rcases client (wipeMutable st.metaFS) with e | v
      · rfl
      · rcases v with _ | r <;> rfl
    rw [hmeta]
    exact hwipe st.metaFS

/-- Witness for C7 at `timestamp.json` over a concrete populated cache. -/
theorem mutable_cache_invalidated_witness :
    existsKey (wipeMutable [("timestamp.json", "t"), ("root.json", "r")]) "timestamp.json" = false
    ∧ existsKey (initMetadata none (fun _ => "net")
        [("timestamp.json", "t"), ("root.json", "r")]) "timestamp.json" = false
    ∧ existsKey (check_for_updates ⟨[("timestamp.json", "t"), ("root.json", "r")], "u/"⟩
        (fun _ => Except.ok none)).1.metaFS "timestamp.json" = false :=
  mutable_cache_invalidated none (fun _ => "net") [("timestamp.json", "t"), ("root.json", "r")]
    ⟨[("timestamp.json", "t"), ("root.json", "r")], "u/"⟩ (fun _ => Except.ok none)
    "timestamp.json" (Or.inl rfl)

theorem initMetadata_of_initialized (bundled : Option String) (network : String → String)
    (fs : MetaFS) (h1 : existsKey fs "root.json" = true)
    (h2 : existsKey fs "1.root.json" = true) :
    initMetadata bundled network fs = wipeMutable fs := by
  have hr : existsKey (wipeMutable fs) "root.json" = true := by
    rw [existsKey_wipeMutable_of_ne fs _ (by decide) (by decide) (by decide)]
    exact h1
  have hv : existsKey (wipeMutable fs) "1.root.json" = true := by
    rw [existsKey_wipeMutable_of_ne fs _ (by decide) (by decide) (by decide)]
    exact h2
  unfold initMetadata
  rw [if_pos (by rw [hr, hv]; rfl)]

/-- C8: when both `root.json` and `1.root.json` are already cached, the
trust-bootstrap routine leaves the contents of both untouched, and a
second run right after the first sees the identical state it produced:
both runs yield the same `root.json` and `1.root.json` contents. -/
theorem bootstrap_idempotent (bundled : Option String) (network : String → String)
    (fs : MetaFS) (h1 : existsKey fs "root.json" = true)
    (h2 : existsKey fs "1.root.json" = true) :
    lookupKey (initMetadata bundled network fs) "root.json" = lookupKey fs "root.json"
    ∧ lookupKey (initMetadata bundled network fs) "1.root.json" = lookupKey fs "1.root.json"
    ∧ initMetadata bundled network (initMetadata bundled network fs)
        = initMetadata bundled network fs := by
  rw [initMetadata_of_initialized bundled network fs h1 h2]
  refine ⟨lookupKey_wipeMutable_of_ne fs _ (by decide) (by decide) (by decide),
    lookupKey_wipeMutable_of_ne fs _ (by decide) (by decide) (by decide), ?_⟩
  have hr : existsKey (wipeMutable fs) "root.json" = true := by
    rw [existsKey_wipeMutable_of_ne fs _ (by decide) (by decide) (by decide)]
    exact h1
  have hv : existsKey (wipeMutable fs) "1.root.json" = true := by
    rw [existsKey_wipeMutable_of_ne fs _ (by decide) (by decide) (by decide)]
    exact h2
  rw [initMetadata_of_initialized bundled network (wipeMutable fs) hr hv]
  exact wipeMutable_wipeMutable fs

/-- Witness for C8 over a concrete fully initialized cache. -/
theorem bootstrap_idempotent_witness :
    existsKey [("root.json", "R"), ("1.root.json", "R"), ("targets.json", "T")]
        "root.json" = true
    ∧ lookupKey (initMetadata (some "R") (fun _ => "net")
          [("root.json", "R"), ("1.root.json", "R"), ("targets.json", "T")]) "root.json" =
        lookupKey [("root.json", "R"), ("1.root.json", "R"), ("targets.json", "T")]
          "root.json" :=
  ⟨by decide,
    (bootstrap_idempotent (some "R") (fun _ => "net")
      [("root.json", "R"), ("1.root.json", "R"), ("targets.json", "T")]
      (by decide) (by decide)).1⟩

/-- C10 counterexample: with `root.json` cached (content `A`) but
`1.root.json` missing and no bundled root available, the remote TOFU
fallback of `_initialize_metadata` re-downloads `root.json` and overwrites
the established trust anchor with the network's content `B`. -/
theorem bootstrap_overwrites_existing_root :
    existsKey [("root.json", "A")] "root.json" = true
    ∧ lookupKey (initMetadata none (fun _ => "B") [("root.json", "A")]) "root.json"
        ≠ lookupKey [("root.json", "A")] "root.json" := by
  refine ⟨by decide, ?_⟩
  have h1 : lookupKey (initMetadata none (fun _ => "B") [("root.json", "A")]) "root.json"
      = some "B" := by decide
  rw [h1]
  decide

/-- C10 (amended): an established `root.json` is preserved by the
trust-bootstrap routine whenever `1.root.json` is also cached or a bundled
root is available; only in the remaining case — `1.root.json` missing and
no bundled root — does the remote fallback re-download and overwrite
`root.json`. -/
theorem root_preserved_unless_remote_fallback (bundled : Option String)
    (network : String → String) (fs : MetaFS)
    (hroot : existsKey fs "root.json" = true)
    (hcase : existsKey fs "1.root.json" = true ∨ bundled.isSome = true) :
    lookupKey (initMetadata bundled network fs) "root.json" = lookupKey fs "root.json" := by
  have hwr : existsKey (wipeMutable fs) "root.json" = true := by
    rw [existsKey_wipeMutable_of_ne fs _ (by decide) (by decide) (by decide)]
    exact hroot
  have hlook : lookupKey (wipeMutable fs) "root.json" = lookupKey fs "root.json" :=
    lookupKey_wipeMutable_of_ne fs _ (by decide) (by decide) (by decide)
  rcases hcase with hv | hbund
  · rw [initMetadata_of_initialized bundled network fs hroot hv]
    exact hlook
  · rcases bundled with _ | c
    · simp at hbund
    · unfold initMetadata
      by_cases hcond :
          (existsKey (wipeMutable fs) "root.json" && existsKey (wipeMutable fs) "1.root.json")
            = true
      · rw [if_pos hcond]
        exact hlook
      · rw [if_neg hcond]
        have hcopy : copy_bundled_root_if_available (some c) (wipeMutable fs)
            = (wipeMutable fs, true) := by
          simp [copy_bundled_root_if_available, hwr]
        rw [hcopy]
        show lookupKey (if existsKey (wipeMutable fs) "1.root.json" = true then wipeMutable fs
          else download_metadata_file network (wipeMutable fs) "1.root.json") "root.json"
            = lookupKey fs "root.json"
        by_cases h1r : existsKey (wipeMutable fs) "1.root.json" = true
        · rw [if_pos h1r]
          exact hlook
        · rw [if_neg h1r]
          rw [lookupKey_download_of_ne network (wipeMutable fs) _ _ (by decide)]
          exact hlook

/-- Witness for C10's amended theorem: a cached root plus a bundled root,
with `1.root.json` missing, survives bootstrap unchanged. -/
theorem root_preserved_unless_remote_fallback_witness :
    existsKey [("root.json", "A")] "root.json" = true
    ∧ lookupKey (initMetadata (some "A") (fun _ => "B") [("root.json", "A")]) "root.json" =
        lookupKey [("root.json", "A")] "root.json" :=
  ⟨by decide,
    root_preserved_unless_remote_fallback (some "A") (fun _ => "B") [("root.json", "A")]
      (by decide) (Or.inr (by decide))⟩

/-! ## Embedding of `custom_install` in `src/AutoUpdate.py` -/

/-- The argument vector handed to `subprocess.Popen` by `custom_install`
(`src/AutoUpdate.py` lines 245-250): the updater executable's path
followed by the current process's pid, the destination directory and the
staged source directory. -/
structure SpawnArgs where
  exe : String
  argPid : Nat
  argDest : String
  argSrc : String
deriving DecidableEq

/-- The possible outcomes of a call to `custom_install`: raising
`FileNotFoundError`, exiting the process via `sys.exit` after spawning the
given child, or returning normally to the caller. -/
inductive InstallOutcome where
  | raised : String → InstallOutcome
  | exitedAfterSpawn : SpawnArgs → Nat → InstallOutcome
  | returned : InstallOutcome
deriving DecidableEq

/-- Embeds `custom_install(src_dir, dst_dir)` from `src/AutoUpdate.py`
(lines 235-252): if `dst_dir/updater.exe` does not exist it raises
`FileNotFoundError`; otherwise it spawns the updater with
`(os.getpid(), dst_dir, src_dir)` and immediately calls `sys.exit(0)`. -/
def custom_install (srcDir dstDir : String) (pid : Nat) (updaterExists : Bool) :
    InstallOutcome :=
  if !updaterExists then InstallOutcome.raised "updater.exe nao encontrado"
  else
    InstallOutcome.exitedAfterSpawn
      ⟨dstDir ++ "/updater.exe", pid, dstDir, srcDir⟩ 0

/-- C5's claimed exit status property: the install callback's exit is a
dedicated "restart required" status, i.e. distinguishable from the plain
success status 0 that the spec reserves for a successful Updater exit. -/
def exitsWithDedicatedStatus (o : InstallOutcome) : Prop :=
  ∀ a c, o = InstallOutcome.exitedAfterSpawn a c → c ≠ 0

/-- C5 counterexample: on the success path `custom_install` exits with
status 0 — the generic success status, not a dedicated "restart required"
code. -/
theorem custom_install_exit_status_not_dedicated :
    ¬ exitsWithDedicatedStatus (custom_install "/state/extracted" "/install" 4242 true) := by
  intro hded
  exact hded ⟨"/install" ++ "/updater.exe", 4242, "/install", "/state/extracted"⟩ 0 rfl rfl

/-- C5 (amended): on the success path (the updater executable is present),
`custom_install` spawns the Updater with arguments
(current pid, destination directory, staged source directory) and then
immediately terminates the process with exit status 0 — the generic
success status rather than a dedicated "restart required" one — and on no
path does it return normally to its caller. -/
theorem custom_install_spawns_and_exits (srcDir dstDir : String) (pid : Nat) :
    custom_install srcDir dstDir pid true
      = InstallOutcome.exitedAfterSpawn ⟨dstDir ++ "/updater.exe", pid, dstDir, srcDir⟩ 0
    ∧ ∀ u : Bool, custom_install srcDir dstDir pid u ≠ InstallOutcome.returned := by
  constructor
  · rfl
  · intro u
    cases u <;> intro hc <;> exact InstallOutcome.noConfusion hc
